import Mathlib

/-!
Verification of the skaffold rollout status-check engine
(`pkg/skaffold/deploy/status`): resource model, progress counter,
resource discovery (`getDeployments`), the per-resource polling loop
(`pollDeploymentStatus`), the aggregate verdict
(`getSkaffoldDeployStatus`) and the two reporting paths
(`printStatusCheckSummary`, `printStatus`).

The engine's implementation file is not part of the sources at hand;
only its test file (`status_check_test.go`) is.  Every definition below
is therefore modelled from the specification of the engine, with the
concrete expectations of the in-tree test file
(`status_check_test.go`) pinning down the behaviour wherever the two
could diverge (deadline sentinel, message formats, return values).
-/

set_option autoImplicit false

namespace Skaffold

/-- Modelled from the spec: the enumerated status codes
(`proto.StatusCode`) used by the status-check engine.  Only the codes
exercised by the engine and its tests are modelled.  `ok` stands for
the protobuf zero value carried by a freshly created resource. -/
inductive StatusCode where
  | ok
  | success
  | userCancelled
  | unknown
  | kubectlConnectionErr
  | deploymentRolloutPending
  | nodeDiskPressure
  | containerTerminated
  | runContainerErr
  | imagePullErr
  | deadlineExceeded
  | deploymentFetchErr
  deriving DecidableEq, Repr

/-- Modelled from the spec: an actionable outcome — an enumerated error
code plus a human message (`proto.ActionableErr`). -/
structure ActionableErr where
  errCode : StatusCode
  message : String
  deriving DecidableEq, Repr

/-- Modelled from the spec: one trackable workload
(`resource.Deployment`).  `nspace` is the Go field `namespace` (a Lean
keyword).  `ae` is the current status outcome, `pods` the pod-level
outcomes attached by the diagnostic probe, `done` whether the resource
reached a terminal state, `changed` whether the status differs from the
last one reported.  The deadline is kept in seconds. -/
structure Deployment where
  name : String
  nspace : String
  deadlineSeconds : Int
  ae : ActionableErr
  pods : List ActionableErr
  done : Bool
  changed : Bool
  deriving DecidableEq, Repr

/-- Modelled from the spec: `resource.NewDeployment` — a fresh resource
with the protobuf zero status, no pods, not done, not changed. -/
def newDeployment (name nspace : String) (deadlineSeconds : Int) : Deployment :=
  { name := name
    nspace := nspace
    deadlineSeconds := deadlineSeconds
    ae := { errCode := StatusCode.ok, message := "" }
    pods := []
    done := false
    changed := false }

/-- Modelled from the spec: the fixed retryable/fatal classification
table.  Connectivity/transient codes (kubectl connection error,
rollout still pending) are retryable; every other code is terminal.
Pinned by the test file: a resource left in `unknown` is complete,
while `kubectlConnectionErr` and `deploymentRolloutPending` keep the
resource pending. -/
def isErrAndNotRetryAble (sc : StatusCode) : Bool :=
  !(sc == StatusCode.kubectlConnectionErr) &&
  !(sc == StatusCode.deploymentRolloutPending)

/-- Modelled from the spec: `Deployment.UpdateStatus`.  If the new
outcome equals the current one the status is left in place with
`changed` cleared; otherwise the status is replaced, `changed` is set,
and the resource becomes `done` when the outcome is success or a
non-retryable error. -/
def Deployment.UpdateStatus (d : Deployment) (ae : ActionableErr) : Deployment :=
  if d.ae = ae then { d with changed := false }
  else
    let newDone : Bool :=
      if ae.errCode == StatusCode.success || isErrAndNotRetryAble ae.errCode
      then true else d.done
    { d with ae := ae, changed := true, done := newDone }

/-- Modelled from the spec: test helper `resource.WithPodStatuses` —
attaches one pod outcome per given code, with the fixed message used by
the test file. -/
def Deployment.WithPodStatuses (d : Deployment) (scs : List StatusCode) : Deployment :=
  { d with pods := scs.map (fun sc => { errCode := sc, message := "pod failed" }) }

/-- Modelled from the spec: the effective status code of a resource as
used by the aggregate verdict.  A cancelled resource reports the
cancellation code; otherwise the first non-success pod-level code takes
precedence over the deployment-level code (pinned by the verdict test,
where a deployment carrying only a `nodeDiskPressure` pod outcome
yields that code). -/
def Deployment.statusCode (d : Deployment) : StatusCode :=
  if d.ae.errCode == StatusCode.userCancelled then d.ae.errCode
  else
    match d.pods.find? (fun p => !(p.errCode == StatusCode.success)) with
    | some p => p.errCode
    | none => d.ae.errCode

/-- Modelled from the spec: the progress counter.  The Go fields are
`int32`; deployment counts of one run stay far below the overflow
bound, so they are modelled as `Int`. -/
structure counter where
  total : Int
  pending : Int
  failed : Int
  deriving DecidableEq, Repr

/-- Modelled from the spec: `newCounter` — all resources pending, none
failed. -/
def newCounter (i : Int) : counter :=
  { total := i, pending := i, failed := 0 }

/-- Modelled from the spec: `counter.markProcessed` — decrements
`pending`, increments `failed` when the reported terminal outcome is a
failure (a non-nil error in Go, modelled as a `Bool`), and returns the
resulting value snapshot. -/
def counter.markProcessed (c : counter) (failedOutcome : Bool) : counter :=
  let newFailed : Int := if failedOutcome then c.failed + 1 else c.failed
  { c with pending := c.pending - 1, failed := newFailed }

/-- Modelled from the spec: `counter.copy` — a value snapshot of the
counter, independent of further mutation. -/
def counter.copy (c : counter) : counter := c

/-- Modelled from the spec: `getSkaffoldDeployStatus` — the aggregate
verdict.  Success with no error when nothing failed; otherwise the
message lists failed/total and the code is that of the first resource,
in list order, whose effective outcome is not success.  The error is
modelled as `Option String` (`none` is Go's nil error). -/
def getSkaffoldDeployStatus (c : counter) (rs : List Deployment) :
    StatusCode × Option String :=
  if c.failed = 0 then (StatusCode.success, none)
  else
    let errMsg := toString c.failed ++ "/" ++ toString c.total ++ " deployment(s) failed"
    match rs.find? (fun r => !(r.statusCode == StatusCode.success)) with
    | some r => (r.statusCode, some errMsg)
    | none => (StatusCode.unknown, some errMsg)

/-- Modelled from the spec: one candidate workload as listed from the
cluster (`appsv1.Deployment` metadata plus the optional declared
progress deadline, in seconds). -/
structure DeploymentItem where
  name : String
  nspace : String
  labels : List (String × String)
  progressDeadlineSeconds : Option Int
  deriving DecidableEq, Repr

/-- The run-identifying label key (`label.RunIDLabel`). -/
def runIDLabel : String := "skaffold.dev/run-id"

/-- Modelled from the spec: the Kubernetes default progress deadline
(600 s) acting as the "undeclared" sentinel; pinned by the test case
where a declared deadline of 600 s falls back to the global one. -/
def kubernetesMaxDeadline : Int := 600

/-- Modelled from the spec: the effective per-resource deadline.  A
declared deadline is honoured unless it equals the 600 s sentinel; an
undeclared or sentinel deadline falls back to the caller-supplied
global deadline. -/
def deadlineSecondsFor (item : DeploymentItem) (deadlineDuration : Int) : Int :=
  match item.progressDeadlineSeconds with
  | none => deadlineDuration
  | some s => if s = kubernetesMaxDeadline then deadlineDuration else s

/-- Modelled from the spec: `getDeployments` — lists the cluster's
deployments, keeps those in the given namespace carrying the run-ID
label with the current run's value, and tags each with its effective
deadline. -/
def getDeployments : List DeploymentItem → String → String → Int → List Deployment
  | [], _, _, _ => []
  | item :: rest, ns, runID, dl =>
    if item.nspace = ns ∧ item.labels.lookup runIDLabel = some runID then
      newDeployment item.name item.nspace (deadlineSecondsFor item dl)
        :: getDeployments rest ns runID dl
    else
      getDeployments rest ns runID dl

/-- Modelled from the spec: the fixed set of pod-level error codes that
are fatal immediately (semantic/container errors — terminated
container, confirmed image-pull failure, container run error). -/
def unrecoverableErrors : List StatusCode :=
  [StatusCode.containerTerminated, StatusCode.runContainerErr, StatusCode.imagePullErr]

/-- Modelled from the spec: `Deployment.HasEncounteredUnrecoverableError`
— whether any attached pod outcome carries a fatal code. -/
def Deployment.HasEncounteredUnrecoverableError (d : Deployment) : Bool :=
  d.pods.any (fun p => unrecoverableErrors.contains p.errCode)

/-- Modelled from the spec: `Deployment.IsStatusCheckCompleteOrCancelled`
— terminal (done) or carrying the cancellation code. -/
def Deployment.IsStatusCheckCompleteOrCancelled (d : Deployment) : Bool :=
  d.done || d.ae.errCode == StatusCode.userCancelled

/-- Modelled from the spec: `Deployment.MarkComplete`. -/
def Deployment.MarkComplete (d : Deployment) : Deployment :=
  { d with done := true }

/-- Modelled from the spec: what one poll iteration observes — the
outcome parsed from the rollout status query, and the pod-level
outcomes returned by the diagnostic probe on the same iteration. -/
structure PollObservation where
  rolloutAe : ActionableErr
  podResults : List ActionableErr
  deriving DecidableEq, Repr

/-- Modelled from the spec: `Deployment.CheckStatus` — update the
resource's status from the rollout query and refresh the pod-level
diagnostics from the probe. -/
def Deployment.CheckStatus (d : Deployment) (obs : PollObservation) : Deployment :=
  let d1 := d.UpdateStatus obs.rolloutAe
  { d1 with pods := obs.podResults }

/-- Modelled from the spec: the outcome recorded when a resource's
deadline elapses while it is still pending or retrying. -/
def deadlineExceededAe : ActionableErr :=
  { errCode := StatusCode.deadlineExceeded
    message := "could not stabilize within deadline" }

/-- Modelled from the spec: `pollDeploymentStatus` — the per-resource
polling loop.  The finite observation schedule models the poll ticks
that fit inside the resource's deadline: exhausting it is the deadline
elapsing.  Each iteration checks the status, stops when the resource is
complete or cancelled, stops immediately (marking the resource
complete) when a pod-level outcome is unrecoverable, and otherwise
keeps polling.  The second component counts the poll iterations
performed. -/
def pollDeploymentStatus : List PollObservation → Deployment → Deployment × Nat
  | [], d => (d.UpdateStatus deadlineExceededAe, 0)
  | obs :: rest, d =>
    if (d.CheckStatus obs).IsStatusCheckCompleteOrCancelled then (d.CheckStatus obs, 1)
    else if (d.CheckStatus obs).HasEncounteredUnrecoverableError then
      ((d.CheckStatus obs).MarkComplete, 1)
    else
      ((pollDeploymentStatus rest (d.CheckStatus obs)).1,
       (pollDeploymentStatus rest (d.CheckStatus obs)).2 + 1)

/-- Modelled from the spec: trim trailing newlines from a message
before embedding it in a printed line. -/
def trimNewLine (s : String) : String :=
  String.mk ((s.data.reverse.dropWhile (fun c => c = Char.ofNat 10)).reverse)

/-- Modelled from the spec: the printed identity of a resource —
`ns:deployment/name`, with the namespace prefix omitted for the
`default` namespace. -/
def resourceName (d : Deployment) : String :=
  (if d.nspace = "default" then "" else d.nspace ++ ":") ++ "deployment/" ++ d.name

/-- Modelled from the spec: `getPendingMessage` — the
`[p/t deployment(s) still pending]` suffix, present only while other
resources are still pending. -/
def getPendingMessage (pending total : Int) : String :=
  if pending > 0 then
    " [" ++ toString pending ++ "/" ++ toString total ++ " deployment(s) still pending]"
  else ""

/-- Modelled from the spec: `printStatusCheckSummary` — the one-line
summary printed when a resource becomes terminal.  Nothing is printed
for a cancelled resource; a ready resource gets the pending-count
suffix; a failed one gets its trimmed error message. -/
def printStatusCheckSummary (r : Deployment) (c : counter) : String :=
  if r.ae.errCode = StatusCode.userCancelled then ""
  else if r.ae.errCode = StatusCode.success then
    " - " ++ resourceName r ++ " is ready." ++ getPendingMessage c.pending c.total ++ "\n"
  else
    " - " ++ resourceName r ++ " failed. Error: " ++ trimNewLine r.ae.message ++ ".\n"

/-- Modelled from the spec: `Deployment.ReportSinceLastUpdated` — the
incremental progress line for a resource whose status changed since the
last report, with each unhealthy pod outcome indented beneath it. -/
def Deployment.ReportSinceLastUpdated (d : Deployment) : String :=
  if d.changed then
    " - " ++ resourceName d ++ ": " ++ trimNewLine d.ae.message ++ "\n" ++
    String.join (d.pods.map (fun p =>
      if p.errCode == StatusCode.success then ""
      else "    - " ++ trimNewLine p.message ++ "\n"))
  else ""

/-- Modelled from the spec: `printStatus` — walks the resources in
order, skipping those already terminal or cancelled, printing the
incremental report of the rest, and returns the accumulated output
together with whether every resource was already terminal. -/
def printStatus : List Deployment → String × Bool
  | [] => ("", true)
  | r :: rest =>
    if r.IsStatusCheckCompleteOrCancelled then printStatus rest
    else (r.ReportSinceLastUpdated ++ (printStatus rest).1, false)

/-- The counter after a sequence of terminal outcomes has been marked
processed, in completion order (`true` = the resource terminated
unsuccessfully, i.e. `markProcessed` was handed a non-nil error). -/
def processAll (c : counter) (outcomes : List Bool) : counter :=
  outcomes.foldl counter.markProcessed c

theorem processAll_eq (outcomes : List Bool) (c : counter) :
    processAll c outcomes =
      { total := c.total
        pending := c.pending - outcomes.length
        failed := c.failed + (outcomes.count true : Int) } := by
  induction outcomes generalizing c with
  | nil => simp [processAll]
  | cons b bs ih =>
    have hstep : processAll c (b :: bs) = processAll (c.markProcessed b) bs := rfl
    rw [hstep, ih]
    cases b <;>
      simp [counter.markProcessed, counter.mk.injEq, List.count_cons] <;>
      omega

/-- Example fixtures shared by the witnesses below: a resource that
ended in success, and one whose pod diagnostics carry a
`nodeDiskPressure` outcome. -/
def exampleSuccessDep : Deployment :=
  (newDeployment "r1" "test" 1).UpdateStatus { errCode := StatusCode.success, message := "" }

def exampleFailedDep : Deployment :=
  (newDeployment "foo" "test" 1).WithPodStatuses [StatusCode.nodeDiskPressure]

/-- C6: each `markProcessed` call decrements `pending` by exactly one,
increments `failed` by exactly one iff the outcome is non-success and
keeps `total` fixed; after one call per resource `pending = 0` and
`failed` is the number of non-success outcomes; after `k < n` calls
`pending = n - k > 0`. -/
theorem counter_markProcessed_invariant (c : counter) (b : Bool) (bs : List Bool) (k : Nat)
    (hk : k < bs.length) :
    ((c.markProcessed b).total = c.total ∧
     (c.markProcessed b).pending = c.pending - 1 ∧
     (c.markProcessed b).failed = c.failed + (if b then 1 else 0)) ∧
    processAll (newCounter (bs.length : Int)) bs =
      { total := (bs.length : Int), pending := 0, failed := (bs.count true : Int) } ∧
    ((processAll (newCounter (bs.length : Int)) (bs.take k)).pending = (bs.length : Int) - k ∧
     0 < (processAll (newCounter (bs.length : Int)) (bs.take k)).pending) := by
  refine ⟨⟨rfl, rfl, by cases b <;> simp [counter.markProcessed]⟩, ?_, ?_⟩
  · rw [processAll_eq]
    simp [newCounter]
  · have hlen : (bs.take k).length = k := by
      rw [List.length_take]
      omega
    have hk2 : (k : Int) < (bs.length : Int) := by exact_mod_cast hk
    rw [processAll_eq, hlen]
    refine ⟨rfl, ?_⟩
    show (0 : Int) < (bs.length : Int) - (k : Int)
    omega

theorem counter_markProcessed_invariant_witness :
    0 < (processAll (newCounter (([true, false, true] : List Bool).length : Int))
          ([true, false, true].take 1)).pending :=
  (counter_markProcessed_invariant ⟨10, 10, 0⟩ true [true, false, true] 1 (by decide)).2.2.2

/-- C1: with `k ≥ 1` failures out of `n` resources, the aggregate
verdict carries the message `"k/n deployment(s) failed"` and the code
of the first resource, in list order, whose effective outcome is not
success. -/
theorem getSkaffoldDeployStatus_first_failure (c : counter) (rs : List Deployment)
    (r : Deployment)
    (hfind : rs.find? (fun x => !(x.statusCode == StatusCode.success)) = some r)
    (hfailed : c.failed = ((rs.filter (fun x => !(x.statusCode == StatusCode.success))).length : Int))
    (htotal : c.total = (rs.length : Int))
    (hpos : 1 ≤ c.failed) :
    getSkaffoldDeployStatus c rs =
      (r.statusCode,
       some (toString ((rs.filter (fun x => !(x.statusCode == StatusCode.success))).length : Int)
         ++ "/" ++ toString ((rs.length : Int)) ++ " deployment(s) failed")) := by
  have h0 : ¬ c.failed = 0 := by omega
  rw [getSkaffoldDeployStatus, if_neg h0, hfind, hfailed, htotal]

theorem getSkaffoldDeployStatus_first_failure_witness :
    getSkaffoldDeployStatus ⟨2, 0, 1⟩ [exampleSuccessDep, exampleFailedDep] =
      (StatusCode.nodeDiskPressure, some "1/2 deployment(s) failed") :=
  (getSkaffoldDeployStatus_first_failure ⟨2, 0, 1⟩ [exampleSuccessDep, exampleFailedDep]
    exampleFailedDep (by decide) (by decide) (by decide) (by decide)).trans (by decide)

/-- C2: the verdict's error is nil iff the counter's failed count is
zero; with zero failures the success code is returned; with a
non-zero failed count the error is non-nil; a run with zero discovered
resources (fresh counter of total 0, empty list) yields success and a
nil error. -/
theorem getSkaffoldDeployStatus_nil_error_iff (c : counter) (rs : List Deployment) :
    ((getSkaffoldDeployStatus c rs).2 = none ↔ c.failed = 0) ∧
    (c.failed = 0 → getSkaffoldDeployStatus c rs = (StatusCode.success, none)) ∧
    (¬ c.failed = 0 → ¬ (getSkaffoldDeployStatus c rs).2 = none) ∧
    getSkaffoldDeployStatus (newCounter 0) [] = (StatusCode.success, none) := by
  refine ⟨?_, ?_, ?_, by rfl⟩ <;> by_cases h : c.failed = 0
  · rw [getSkaffoldDeployStatus, if_pos h]
    simp [h]
  · rw [getSkaffoldDeployStatus, if_neg h]
    cases hf : rs.find? (fun x => !(x.statusCode == StatusCode.success)) <;> simp [hf, h]
  · intro _
    rw [getSkaffoldDeployStatus, if_pos h]
  · intro hc
    exact absurd hc h
  · intro hc
    exact absurd h hc
  · intro _
    rw [getSkaffoldDeployStatus, if_neg h]
    cases hf : rs.find? (fun x => !(x.statusCode == StatusCode.success)) <;> simp [hf]

theorem getSkaffoldDeployStatus_nil_error_iff_witness :
    getSkaffoldDeployStatus (newCounter 2) [exampleSuccessDep, exampleSuccessDep] =
      (StatusCode.success, none) :=
  (getSkaffoldDeployStatus_nil_error_iff (newCounter 2)
    [exampleSuccessDep, exampleSuccessDep]).2.1 (by decide)

theorem mem_getDeployments (items : List DeploymentItem) (ns runID : String) (dl : Int)
    (r : Deployment) :
    r ∈ getDeployments items ns runID dl ↔
      ∃ item, item ∈ items ∧ item.nspace = ns ∧
        item.labels.lookup runIDLabel = some runID ∧
        r = newDeployment item.name item.nspace (deadlineSecondsFor item dl) := by
  induction items with
  | nil => simp [getDeployments]
  | cons a rest ih =>
    by_cases h : a.nspace = ns ∧ a.labels.lookup runIDLabel = some runID
    · rw [getDeployments, if_pos h]
      constructor
      · intro hr
        rcases List.mem_cons.mp hr with hr | hr
        · exact ⟨a, List.mem_cons_self a rest, h.1, h.2, hr⟩
        · obtain ⟨item, hmem, h1, h2, h3⟩ := ih.mp hr
          exact ⟨item, List.mem_cons_of_mem a hmem, h1, h2, h3⟩
      · rintro ⟨item, hmem, h1, h2, h3⟩
        rcases List.mem_cons.mp hmem with rfl | hmem
        · rw [h3]
          exact List.mem_cons_self _ _
        · exact List.mem_cons_of_mem _ (ih.mpr ⟨item, hmem, h1, h2, h3⟩)
    · rw [getDeployments, if_neg h, ih]
      constructor
      · rintro ⟨item, hmem, h1, h2, h3⟩
        exact ⟨item, List.mem_cons_of_mem a hmem, h1, h2, h3⟩
      · rintro ⟨item, hmem, h1, h2, h3⟩
        rcases List.mem_cons.mp hmem with rfl | hmem
        · exact absurd ⟨h1, h2⟩ h
        · exact ⟨item, hmem, h1, h2, h3⟩

/-- C4: `getDeployments` returns exactly the deployments of the given
namespace carrying the run-ID label with the current run's value;
anything unlabelled, labelled for another run, or in another namespace
is excluded, and when nothing matches the result is the empty list. -/
theorem getDeployments_run_filter (items : List DeploymentItem) (ns runID : String) (dl : Int) :
    (∀ r, r ∈ getDeployments items ns runID dl ↔
        ∃ item, item ∈ items ∧ item.nspace = ns ∧
          item.labels.lookup runIDLabel = some runID ∧
          r = newDeployment item.name item.nspace (deadlineSecondsFor item dl)) ∧
    ((∀ item, item ∈ items →
        ¬ (item.nspace = ns ∧ item.labels.lookup runIDLabel = some runID)) →
      getDeployments items ns runID dl = []) := by
  refine ⟨fun r => mem_getDeployments items ns runID dl r, fun h => ?_⟩
  cases hres : getDeployments items ns runID dl with
  | nil => rfl
  | cons r rs =>
    have hr : r ∈ getDeployments items ns runID dl := by
      rw [hres]
      exact List.mem_cons_self r rs
    obtain ⟨item, hmem, h1, h2, _⟩ := (mem_getDeployments items ns runID dl r).mp hr
    exact absurd ⟨h1, h2⟩ (h item hmem)

theorem getDeployments_run_filter_witness :
    getDeployments [⟨"dep1", "test", [(runIDLabel, "9876-6789")], some 100⟩]
      "test" "this-run" 200 = [] :=
  (getDeployments_run_filter _ "test" "this-run" 200).2 (by decide)

/-- C5 counterexample: a deployment declaring a 600 s progress deadline
is not given its declared value — `getDeployments` resolves its
effective deadline to the 200 s global deadline instead. -/
theorem getDeployments_declared_deadline_not_honored :
    (getDeployments [⟨"dep1", "test", [(runIDLabel, "run1")], some 600⟩]
      "test" "run1" 200).map Deployment.deadlineSeconds = [200] ∧
    ¬ (200 : Int) = 600 := by
  decide

/-- C5 (amended): the effective deadline of a discovered resource
equals its declared progress deadline when one is declared and it
differs from the 600 s Kubernetes-default sentinel; an undeclared or
sentinel-valued (600 s) deadline resolves to the caller-supplied global
deadline. -/
theorem getDeployments_effective_deadline (items : List DeploymentItem) (ns runID : String)
    (dl : Int) (item : DeploymentItem) (hmem : item ∈ items) (hns : item.nspace = ns)
    (hlab : item.labels.lookup runIDLabel = some runID) :
    ∃ r, r ∈ getDeployments items ns runID dl ∧ r.name = item.name ∧
      r.nspace = item.nspace ∧
      (∀ s, item.progressDeadlineSeconds = some s → ¬ s = kubernetesMaxDeadline →
        r.deadlineSeconds = s) ∧
      (item.progressDeadlineSeconds = none → r.deadlineSeconds = dl) ∧
      (item.progressDeadlineSeconds = some kubernetesMaxDeadline → r.deadlineSeconds = dl) := by
  refine ⟨newDeployment item.name item.nspace (deadlineSecondsFor item dl),
    (mem_getDeployments items ns runID dl _).mpr ⟨item, hmem, hns, hlab, rfl⟩,
    rfl, rfl, ?_, ?_, ?_⟩
  · intro s hs hs600
    show deadlineSecondsFor item dl = s
    rw [deadlineSecondsFor, hs]
    exact if_neg hs600
  · intro h
    show deadlineSecondsFor item dl = dl
    rw [deadlineSecondsFor, h]
  · intro h
    show deadlineSecondsFor item dl = dl
    rw [deadlineSecondsFor, h]
    exact if_pos rfl

theorem getDeployments_effective_deadline_witness :
    ∃ r, r ∈ getDeployments [⟨"dep1", "test", [(runIDLabel, "run1")], some 10⟩]
      "test" "run1" 200 ∧ r.name = "dep1" ∧ r.nspace = "test" ∧
      (∀ s, (some (10 : Int) : Option Int) = some s → ¬ s = kubernetesMaxDeadline →
        r.deadlineSeconds = s) ∧
      ((some (10 : Int) : Option Int) = none → r.deadlineSeconds = 200) ∧
      ((some (10 : Int) : Option Int) = some kubernetesMaxDeadline →
        r.deadlineSeconds = 200) :=
  getDeployments_effective_deadline _ "test" "run1" 200 _ (List.mem_cons_self _ _) rfl rfl

/-- C10: a declared progress deadline is honoured even beyond the
caller-supplied global deadline, except when it equals the 600 s
Kubernetes-default sentinel, in which case the global deadline is used
instead — the cap fires only at the sentinel, not at the global
value. -/
theorem getDeployments_sentinel_cap (items : List DeploymentItem) (ns runID : String)
    (dl : Int) (item : DeploymentItem) (s : Int) (hmem : item ∈ items)
    (hns : item.nspace = ns) (hlab : item.labels.lookup runIDLabel = some runID)
    (hdecl : item.progressDeadlineSeconds = some s) :
    (¬ s = kubernetesMaxDeadline →
      newDeployment item.name item.nspace s ∈ getDeployments items ns runID dl) ∧
    (s = kubernetesMaxDeadline →
      newDeployment item.name item.nspace dl ∈ getDeployments items ns runID dl) := by
  constructor
  · intro h600
    have hd : deadlineSecondsFor item dl = s := by
      rw [deadlineSecondsFor, hdecl]
      exact if_neg h600
    exact (mem_getDeployments items ns runID dl _).mpr ⟨item, hmem, hns, hlab, by rw [hd]⟩
  · intro h600
    have hd : deadlineSecondsFor item dl = dl := by
      rw [deadlineSecondsFor, hdecl]
      exact if_pos h600
    exact (mem_getDeployments items ns runID dl _).mpr ⟨item, hmem, hns, hlab, by rw [hd]⟩

theorem getDeployments_sentinel_cap_witness :
    newDeployment "dep1" "test" 300 ∈
      getDeployments [⟨"dep1", "test", [(runIDLabel, "run1")], some 300⟩]
        "test" "run1" 200 ∧
    newDeployment "dep2" "test" 200 ∈
      getDeployments [⟨"dep2", "test", [(runIDLabel, "run1")], some 600⟩]
        "test" "run1" 200 :=
  ⟨(getDeployments_sentinel_cap [⟨"dep1", "test", [(runIDLabel, "run1")], some 300⟩]
      "test" "run1" 200 ⟨"dep1", "test", [(runIDLabel, "run1")], some 300⟩ 300
      (List.mem_cons_self _ _) rfl rfl rfl).1 (by decide),
   (getDeployments_sentinel_cap [⟨"dep2", "test", [(runIDLabel, "run1")], some 600⟩]
      "test" "run1" 200 ⟨"dep2", "test", [(runIDLabel, "run1")], some 600⟩ 600
      (List.mem_cons_self _ _) rfl rfl rfl).2 rfl⟩

/-- Example fixtures for the reporting claims: a cancelled resource and
a resource that terminated in the `unknown` failure outcome. -/
def exampleCancelledDep : Deployment :=
  (newDeployment "r1" "test" 1).UpdateStatus
    { errCode := StatusCode.userCancelled, message := "" }

def exampleUnknownDep : Deployment :=
  (newDeployment "r1" "test" 1).UpdateStatus
    { errCode := StatusCode.unknown, message := "error" }

/-- C7: a resource carrying the user-cancelled outcome produces no
output on either print path — the summary line is empty, and
`printStatus` over any list yields the same output and boolean whether
or not the cancelled resource is present, for every counter state. -/
theorem cancelled_resource_never_printed (r : Deployment) (c : counter)
    (pre post : List Deployment) (h : r.ae.errCode = StatusCode.userCancelled) :
    printStatusCheckSummary r c = "" ∧
    printStatus (pre ++ r :: post) = printStatus (pre ++ post) := by
  have hc : r.IsStatusCheckCompleteOrCancelled = true := by
    simp [Deployment.IsStatusCheckCompleteOrCancelled, h]
  constructor
  · rw [printStatusCheckSummary, if_pos h]
  · induction pre with
    | nil => simp [printStatus, hc]
    | cons a rest ih =>
      simp only [List.cons_append, printStatus, List.append_eq]
      rw [ih]

theorem cancelled_resource_never_printed_witness :
    printStatusCheckSummary exampleCancelledDep (newCounter 10) = "" ∧
    printStatus [exampleSuccessDep, exampleCancelledDep] =
      printStatus [exampleSuccessDep] :=
  cancelled_resource_never_printed exampleCancelledDep (newCounter 10)
    [exampleSuccessDep] [] (by decide)

/-- C9 counterexample: `printStatus` returns `true` on a list whose
only resource terminated in the non-success `unknown` outcome, so the
returned boolean is not "every resource ended in the success
outcome". -/
theorem printStatus_true_despite_failure :
    ¬ (((printStatus [exampleUnknownDep]).2 = true) ↔
        (∀ r ∈ [exampleUnknownDep], r.ae.errCode = StatusCode.success)) := by
  decide

/-- C9 (amended): the boolean returned by `printStatus` is `true` iff
every resource in the list is terminal — status-check complete (success
or non-retryable failure) or cancelled — not necessarily successful. -/
theorem printStatus_true_iff_all_terminal (rs : List Deployment) :
    (printStatus rs).2 = true ↔
      ∀ r ∈ rs, r.IsStatusCheckCompleteOrCancelled = true := by
  induction rs with
  | nil => simp [printStatus]
  | cons a rest ih =>
    by_cases h : a.IsStatusCheckCompleteOrCancelled = true
    · simp [printStatus, h, ih]
    · have hf : a.IsStatusCheckCompleteOrCancelled = false := by
        revert h
        cases a.IsStatusCheckCompleteOrCancelled <;> simp
      simp [printStatus, hf]

theorem printStatus_true_iff_all_terminal_witness :
    (printStatus [exampleUnknownDep, exampleCancelledDep]).2 = true :=
  (printStatus_true_iff_all_terminal [exampleUnknownDep, exampleCancelledDep]).mpr
    (by decide)

/-- Poll-loop fixtures mirroring the poller tests: a poll seeing a
pending rollout with a terminated container in the pods, a poll seeing
a retryable connection error with a node-disk-pressure pod, and a poll
seeing a successful rollout with healthy pods. -/
def fatalPollObs : PollObservation :=
  { rolloutAe := { errCode := StatusCode.deploymentRolloutPending
                   message := "Waiting for replicas to be available" }
    podResults := [{ errCode := StatusCode.containerTerminated, message := "err" }] }

def retryPollObs : PollObservation :=
  { rolloutAe := { errCode := StatusCode.kubectlConnectionErr
                   message := "Unable to connect to the server" }
    podResults := [{ errCode := StatusCode.nodeDiskPressure, message := "err" }] }

def successPollObs : PollObservation :=
  { rolloutAe := { errCode := StatusCode.success, message := "successfully rolled out" }
    podResults := [{ errCode := StatusCode.success, message := "" }] }

def exampleDep : Deployment := newDeployment "dep" "test" 1

/-- C3: when the first poll observes a fatal (unrecoverable) pod-level
container error, the poll loop performs exactly one iteration — however
much schedule (deadline) remains — the resource is terminal, and its
effective status code is that fatal code. -/
theorem pollDeploymentStatus_fatal_stops (obs : PollObservation)
    (rest : List PollObservation) (d : Deployment) (p : ActionableErr)
    (hfind : obs.podResults.find? (fun q => !(q.errCode == StatusCode.success)) = some p)
    (hfatal : unrecoverableErrors.contains p.errCode = true)
    (hobs : ¬ obs.rolloutAe.errCode = StatusCode.userCancelled) :
    (pollDeploymentStatus (obs :: rest) d).2 = 1 ∧
    ((pollDeploymentStatus (obs :: rest) d).1).statusCode = p.errCode ∧
    ((pollDeploymentStatus (obs :: rest) d).1).done = true := by
  have hpods : (d.CheckStatus obs).pods = obs.podResults := rfl
  have hae : ¬ (d.CheckStatus obs).ae.errCode = StatusCode.userCancelled := by
    by_cases heq : d.ae = obs.rolloutAe
    · intro hx
      apply hobs
      rw [← heq]
      have hsame : (d.CheckStatus obs).ae = d.ae := by
        simp [Deployment.CheckStatus, Deployment.UpdateStatus, heq]
      rw [hsame] at hx
      exact hx
    · simp [Deployment.CheckStatus, Deployment.UpdateStatus, heq, hobs]
  have hunrec : (d.CheckStatus obs).HasEncounteredUnrecoverableError = true := by
    have hp : p ∈ obs.podResults := List.mem_of_find?_eq_some hfind
    rw [Deployment.HasEncounteredUnrecoverableError, hpods]
    rw [List.any_eq_true]
    exact ⟨p, hp, hfatal⟩
  have hsc : (d.CheckStatus obs).statusCode = p.errCode := by
    rw [Deployment.statusCode, hpods, hfind]
    rw [if_neg (by simpa using hae)]
  by_cases hcomp : (d.CheckStatus obs).IsStatusCheckCompleteOrCancelled = true
  · have hdone : (d.CheckStatus obs).done = true := by
      have := hcomp
      rw [Deployment.IsStatusCheckCompleteOrCancelled, Bool.or_eq_true] at this
      rcases this with hh | hh
      · exact hh
      · exact absurd (by simpa using hh) hae
    simp only [pollDeploymentStatus, hcomp, if_true]
    exact ⟨by trivial, hsc, hdone⟩
  · have hcomp' : (d.CheckStatus obs).IsStatusCheckCompleteOrCancelled = false := by
      revert hcomp
      cases (d.CheckStatus obs).IsStatusCheckCompleteOrCancelled <;> simp
    simp only [pollDeploymentStatus, hcomp', Bool.false_eq_true, if_false, hunrec, if_true]
    refine ⟨by trivial, ?_, by trivial⟩
    show ((d.CheckStatus obs).MarkComplete).statusCode = p.errCode
    rw [show ((d.CheckStatus obs).MarkComplete).statusCode
          = (d.CheckStatus obs).statusCode from rfl, hsc]

theorem pollDeploymentStatus_fatal_stops_witness :
    (pollDeploymentStatus [fatalPollObs, fatalPollObs, fatalPollObs] exampleDep).2 = 1 ∧
    ((pollDeploymentStatus [fatalPollObs, fatalPollObs, fatalPollObs] exampleDep).1).statusCode
      = StatusCode.containerTerminated ∧
    ((pollDeploymentStatus [fatalPollObs, fatalPollObs, fatalPollObs] exampleDep).1).done
      = true :=
  pollDeploymentStatus_fatal_stops fatalPollObs [fatalPollObs, fatalPollObs] exampleDep
    { errCode := StatusCode.containerTerminated, message := "err" }
    (by decide) (by decide) (by decide)

/-- A poll observation on which the engine keeps retrying: the rollout
outcome is one of the retryable codes and no pod-level outcome is in
the unrecoverable set. -/
def retryableObservation (o : PollObservation) : Bool :=
  !(isErrAndNotRetryAble o.rolloutAe.errCode) &&
  !(o.podResults.any (fun p => unrecoverableErrors.contains p.errCode))

/-- C8: a resource whose polls observe only retryable errors and then a
success within its schedule (deadline) keeps being polled through the
retryable errors and ends with the success outcome, never a failure. -/
theorem pollDeploymentStatus_recovers (pre : List PollObservation) (obs : PollObservation)
    (rest : List PollObservation) (d : Deployment)
    (hpre : ∀ o ∈ pre, retryableObservation o = true)
    (hobs : obs.rolloutAe.errCode = StatusCode.success)
    (hpods : ∀ q ∈ obs.podResults, q.errCode = StatusCode.success)
    (hdone : d.done = false)
    (hcan : ¬ d.ae.errCode = StatusCode.userCancelled)
    (hsucc : ¬ d.ae.errCode = StatusCode.success) :
    ((pollDeploymentStatus (pre ++ obs :: rest) d).1).statusCode = StatusCode.success ∧
    (pollDeploymentStatus (pre ++ obs :: rest) d).2 = pre.length + 1 := by
  induction pre generalizing d with
  | nil =>
    have hneq : ¬ d.ae = obs.rolloutAe := by
      intro he
      exact hsucc (by rw [he, hobs])
    have hd1ae : (d.CheckStatus obs).ae.errCode = StatusCode.success := by
      simp [Deployment.CheckStatus, Deployment.UpdateStatus, hneq, hobs]
    have hd1done : (d.CheckStatus obs).done = true := by
      simp [Deployment.CheckStatus, Deployment.UpdateStatus, hneq, hobs]
    have hcomp : (d.CheckStatus obs).IsStatusCheckCompleteOrCancelled = true := by
      rw [Deployment.IsStatusCheckCompleteOrCancelled, hd1done]
      rfl
    have hfind : (d.CheckStatus obs).pods.find?
        (fun q => !(q.errCode == StatusCode.success)) = none := by
      rw [show (d.CheckStatus obs).pods = obs.podResults from rfl]
      rw [List.find?_eq_none]
      intro q hq
      simp [hpods q hq]
    simp only [List.nil_append, pollDeploymentStatus, hcomp, if_true]
    refine ⟨?_, rfl⟩
    rw [Deployment.statusCode, hfind, if_neg (by simp [hd1ae]), hd1ae]
  | cons o os ih =>
    have ho := hpre o (List.mem_cons_self o os)
    have ho1 : isErrAndNotRetryAble o.rolloutAe.errCode = false := by
      rw [retryableObservation, Bool.and_eq_true] at ho
      have := ho.1
      revert this
      cases isErrAndNotRetryAble o.rolloutAe.errCode <;> simp
    have ho2 : o.podResults.any (fun p => unrecoverableErrors.contains p.errCode) = false := by
      rw [retryableObservation, Bool.and_eq_true] at ho
      have := ho.2
      revert this
      cases o.podResults.any (fun p => unrecoverableErrors.contains p.errCode) <;> simp
    have hcode : o.rolloutAe.errCode = StatusCode.kubectlConnectionErr ∨
        o.rolloutAe.errCode = StatusCode.deploymentRolloutPending := by
      revert ho1
      rw [isErrAndNotRetryAble]
      cases o.rolloutAe.errCode <;> simp
    have hnotsucc : ¬ o.rolloutAe.errCode = StatusCode.success := by
      rcases hcode with hh | hh <;> rw [hh] <;> intro hx <;> exact StatusCode.noConfusion hx
    have hnotcan : ¬ o.rolloutAe.errCode = StatusCode.userCancelled := by
      rcases hcode with hh | hh <;> rw [hh] <;> intro hx <;> exact StatusCode.noConfusion hx
    have hd1done : (d.CheckStatus o).done = false := by
      by_cases heq : d.ae = o.rolloutAe
      · simp [Deployment.CheckStatus, Deployment.UpdateStatus, heq, hdone]
      · simp [Deployment.CheckStatus, Deployment.UpdateStatus, heq, hdone, ho1,
          hnotsucc]
    have hd1can : ¬ (d.CheckStatus o).ae.errCode = StatusCode.userCancelled := by
      by_cases heq : d.ae = o.rolloutAe <;>
        simp [Deployment.CheckStatus, Deployment.UpdateStatus, heq, hcan, hnotcan]
    have hd1succ : ¬ (d.CheckStatus o).ae.errCode = StatusCode.success := by
      by_cases heq : d.ae = o.rolloutAe <;>
        simp [Deployment.CheckStatus, Deployment.UpdateStatus, heq, hsucc, hnotsucc]
    have hcomp : (d.CheckStatus o).IsStatusCheckCompleteOrCancelled = false := by
      rw [Deployment.IsStatusCheckCompleteOrCancelled, hd1done]
      simp [hd1can]
    have hunrec : (d.CheckStatus o).HasEncounteredUnrecoverableError = false := by
      rw [Deployment.HasEncounteredUnrecoverableError]
      rw [show (d.CheckStatus o).pods = o.podResults from rfl]
      exact ho2
    have hpre' : ∀ x ∈ os, retryableObservation x = true := by
      intro x hx
      exact hpre x (List.mem_cons_of_mem o hx)
    obtain ⟨ih1, ih2⟩ := ih (d.CheckStatus o) hpre' hd1done hd1can hd1succ
    simp only [List.cons_append, pollDeploymentStatus, hcomp, Bool.false_eq_true, if_false,
      hunrec, List.append_eq]
    refine ⟨ih1, ?_⟩
    rw [ih2]
    simp [List.length_cons]

theorem pollDeploymentStatus_recovers_witness :
    ((pollDeploymentStatus [retryPollObs, retryPollObs, successPollObs] exampleDep).1).statusCode
      = StatusCode.success ∧
    (pollDeploymentStatus [retryPollObs, retryPollObs, successPollObs] exampleDep).2 = 3 :=
  pollDeploymentStatus_recovers [retryPollObs, retryPollObs] successPollObs [] exampleDep
    (by decide) (by decide) (by decide) (by decide) (by decide) (by decide)

end Skaffold
